import Mathlib

/-!
Shallow embedding of the portal-inbox message extension
(`portal-inbox-extension.js`): the field mapper, the read-state
reconciler, the tabular-API query/write construction, and the reply
composer, together with theorems settling the specification claims.

JavaScript values that may be `undefined` or `null` are modelled by
`JsVal`.  Timestamps (ISO 8601 strings compared through `Date`) are
modelled by `Nat` (milliseconds since the epoch); an ISO string is never
empty, so a present date is always truthy.
-/

namespace PortalInbox

/-- A JavaScript value of underlying type `α`: `undefined`, `null`, or a
proper value. -/
inductive JsVal (α : Type) where
  | undefined
  | null
  | val (a : α)
deriving Repr, DecidableEq, BEq

/-- True exactly when the value is neither `undefined` nor `null`
(the `!== undefined && !== null` test). -/
def JsVal.isPresent {α : Type} : JsVal α → Bool
  | .val _ => true
  | _ => false

/-- Extract the value, with a default for `undefined`/`null`. -/
def JsVal.getD {α : Type} : JsVal α → α → α
  | .val a, _ => a
  | _, d => d

/-- JavaScript truthiness of a string value: present and non-empty. -/
def truthyStr (v : JsVal String) : Bool :=
  match v with
  | .val s => s ≠ ""
  | _ => false

/-- JavaScript truthiness of a boolean value: the value `true`. -/
def truthyBool (v : JsVal Bool) : Bool :=
  match v with
  | .val b => b
  | _ => false

/-- The `x || d` idiom on string values: `d` when `x` is falsy. -/
def strOr (v : JsVal String) (d : String) : String :=
  match v with
  | .val s => if s = "" then d else s
  | _ => d

/-- String interpolation of a JavaScript value (template literals render
`undefined` and `null` as those words). -/
def jsStr (v : JsVal String) : String :=
  match v with
  | .val s => s
  | .null => "null"
  | .undefined => "undefined"

/-- A Dataverse contact reference carried by an activity party
(`partyid_contact`): its `contactid` and `fullname` fields. -/
structure Contact where
  contactid : JsVal String
  fullname : JsVal String
deriving Repr, DecidableEq

/-- One entry of `adx_portalcomment_activity_parties`. -/
structure RawParty where
  participationtypemask : Int
  partyid_contact : JsVal Contact
deriving Repr, DecidableEq

/-- A raw wire record handed to `mapPortalDataToMessages`: the union of
the legacy-shape fields and the Dataverse `adx_portalcomment` fields.
`hasReadVal` stands for `comment[the configured hasread field]` and
`createdbyFormatted` for the `@OData...FormattedValue` annotation of
`_createdby_value`. -/
structure RawRecord where
  from_ : JsVal String
  body : JsVal String
  id : JsVal String
  subject : JsVal String
  date : JsVal Nat
  read : JsVal Bool
  category : JsVal String
  activityid : JsVal String
  createdbyValue : JsVal String
  createdbyFormatted : JsVal String
  activityParties : JsVal (List RawParty)
  createdon : JsVal Nat
  description : JsVal String
  hasReadVal : JsVal Bool
  regardingobjectidValue : JsVal String
  directioncode : JsVal Int
  statecode : JsVal Int
  statuscode : JsVal Int
deriving Repr, DecidableEq

/-- The canonical internal message produced by the mapper.  Legacy
records leave the Dataverse metadata fields `undefined`. -/
structure Message where
  id : JsVal String
  from_ : String
  subject : String
  body : String
  date : JsVal Nat
  read : JsVal Bool
  category : String
  regardingObjectId : JsVal String
  toContact : JsVal String
  toContactId : JsVal String
  fromStaffId : JsVal String
  directionCode : JsVal Int
  statecode : JsVal Int
  statuscode : JsVal Int
  hasReadValue : JsVal Bool
deriving Repr, DecidableEq

/-- The distinct `throw new Error(...)` sites of
`mapPortalDataToMessages`. -/
inductive MappingError where
  | createdByMissing
  | partiesMissing
  | contactPartyMissing
  | contactIdMissing
  | staffNameMissing
deriving Repr, DecidableEq

/-- The legacy-shape test
`comment.from && comment.body && !comment.activityid`. -/
def legacyShape (c : RawRecord) : Bool :=
  truthyStr c.from_ && truthyStr c.body && !truthyStr c.activityid

/-- The party predicate of the mapper:
`p.participationtypemask === 2 && p.partyid_contact !== null && p.partyid_contact !== undefined`. -/
def recipientPred (p : RawParty) : Bool :=
  p.participationtypemask == 2 && p.partyid_contact.isPresent

/-- The date used for the localStorage comparison:
`new Date(comment.createdon || comment.date || new Date())`. -/
def derivDate (c : RawRecord) (now : Nat) : Nat :=
  match c.createdon with
  | .val d => d
  | _ =>
    match c.date with
    | .val d => d
    | _ => now

/-- Read-status derivation of the Dataverse branch: the server-held
field verbatim when present (not absent/null), otherwise the comparison
of the record date against the persisted `lastCheckedAt` (defaulting to
the epoch). -/
def portalIsRead (lastChecked : Option Nat) (now : Nat) (c : RawRecord) : Bool :=
  match c.hasReadVal with
  | .val b => b
  | _ => derivDate c now ≤ lastChecked.getD 0

/-- Map one raw record to a `Message`, faithful to the body of the
`records.map` closure in `mapPortalDataToMessages`. -/
def mapPortalComment (lastChecked : Option Nat) (now : Nat) (c : RawRecord) :
    Except MappingError Message :=
  if legacyShape c then
    .ok { id := c.id
          from_ := c.from_.getD ""
          subject := strOr c.subject "(No Subject)"
          body := strOr c.body ""
          date := c.date
          read := match c.read with
                  | .undefined => .val false
                  | r => r
          category := strOr c.category "general"
          regardingObjectId := .undefined
          toContact := .undefined
          toContactId := .undefined
          fromStaffId := .undefined
          directionCode := .undefined
          statecode := .undefined
          statuscode := .undefined
          hasReadValue := .undefined }
  else if !truthyStr c.createdbyValue then
    .error .createdByMissing
  else
    match c.activityParties with
    | .val parties =>
      if parties.isEmpty then
        .error .partiesMissing
      else
        match parties.find? recipientPred with
        | none => .error .contactPartyMissing
        | some toParty =>
          if !truthyStr (toParty.partyid_contact.getD ⟨.undefined, .undefined⟩).contactid then
            .error .contactIdMissing
          else if !truthyStr c.createdbyFormatted then
            .error .staffNameMissing
          else
            .ok { id := c.activityid
                  from_ := c.createdbyFormatted.getD ""
                  subject := strOr c.subject "(No Subject)"
                  body := strOr c.description ""
                  date := .val (c.createdon.getD now)
                  read := .val (portalIsRead lastChecked now c)
                  category := "portal-comment"
                  regardingObjectId := c.regardingobjectidValue
                  toContact := (toParty.partyid_contact.getD ⟨.undefined, .undefined⟩).fullname
                  toContactId := (toParty.partyid_contact.getD ⟨.undefined, .undefined⟩).contactid
                  fromStaffId := c.createdbyValue
                  directionCode := c.directioncode
                  statecode := c.statecode
                  statuscode := c.statuscode
                  hasReadValue := c.hasReadVal }
    | _ => .error .partiesMissing

/-- Model of `records.map` with exception semantics: a thrown error aborts the
whole traversal. -/
def mapRecords (f : RawRecord → Except MappingError Message) :
    List RawRecord → Except MappingError (List Message)
  | [] => .ok []
  | r :: rs =>
    match f r with
    | .error e => .error e
    | .ok m =>
      match mapRecords f rs with
      | .error e => .error e
      | .ok ms => .ok (m :: ms)

/-- The mapper `mapPortalDataToMessages`: a thrown `MappingError` aborts the whole
`records.map`. -/
def mapPortalDataToMessages (lastChecked : Option Nat) (now : Nat)
    (records : List RawRecord) : Except MappingError (List Message) :=
  mapRecords (mapPortalComment lastChecked now) records

/-- The observable state of the `Data` namespace together with the
browser-persisted `portalInbox_lastCheckedComments` value:
`lastChecked = none` models an absent localStorage entry. -/
structure World where
  messages : List Message
  unreadCount : Nat
  lastChecked : Option Nat
deriving Repr, DecidableEq

/-- The unread count: `messages.filter(msg => !msg.read).length`. -/
def unreadOf (msgs : List Message) : Nat :=
  (msgs.filter (fun m => !truthyBool m.read)).length

/-- The read messages carrying a (truthy) date:
`messages.filter(msg => msg.read && msg.date)`. -/
def readWithDate (msgs : List Message) : List Message :=
  msgs.filter (fun m => truthyBool m.read && m.date.isPresent)

/-- The `readMessages.reduce(...)` selection of the most recently read
message (the first element wins ties, later strictly-greater dates
replace it). -/
def maxByDate (h : Message) (t : List Message) : Message :=
  t.foldl (fun latest msg => if msg.date.getD 0 > latest.date.getD 0 then msg else latest) h

/-- The reconciler `processMessages`: recompute the unread count and advance
`lastCheckedAt` to the date of the most recently read message when that
exceeds the stored value. -/
def processMessages (w : World) : World :=
  match readWithDate w.messages with
  | [] => { w with unreadCount := unreadOf w.messages }
  | h :: t =>
    if (maxByDate h t).date.getD 0 > w.lastChecked.getD 0 then
      { messages := w.messages, unreadCount := unreadOf w.messages,
        lastChecked := some ((maxByDate h t).date.getD 0) }
    else
      { w with unreadCount := unreadOf w.messages }

/-- Lookup `getMessage`: first message whose `id` strictly equals the given
string. -/
def getMessage (w : World) (messageId : String) : Option Message :=
  w.messages.find? (fun m => m.id == .val messageId)

/-- The operation `updateMessageReadStatus`: a no-op in the local environment or
without a portal data source; otherwise advances `lastCheckedAt` to the
message date when newer (the remote PATCH has no local effect and its
failure is caught). -/
def updateMessageReadStatus (isLocal hasPortalCfg : Bool) (w : World)
    (messageId : String) (isRead : Bool) : World :=
  if isLocal || !hasPortalCfg then w
  else
    match getMessage w messageId with
    | some m =>
      if isRead then
        if m.date.getD 0 > w.lastChecked.getD 0 then
          { w with lastChecked := some (m.date.getD 0) }
        else w
      else w
    | none => w

/-- Mutation of the found message object: set `read = true` on the first
message with the given id. -/
def setReadFirst (msgs : List Message) (messageId : String) : List Message :=
  match msgs with
  | [] => []
  | m :: rest =>
    if m.id == .val messageId then { m with read := .val true } :: rest
    else m :: setReadFirst rest messageId

/-- The operation `markMessageAsRead`: no-op on unknown id or already-read message;
otherwise set the local flag, run `updateMessageReadStatus`, and
recompute via `processMessages`. -/
def markMessageAsRead (isLocal hasPortalCfg : Bool) (w : World)
    (messageId : String) : World :=
  match getMessage w messageId with
  | none => w
  | some m =>
    if truthyBool m.read then w
    else
      let w1 : World := { w with messages := setReadFirst w.messages messageId }
      let w2 := updateMessageReadStatus isLocal hasPortalCfg w1 messageId true
      processMessages w2

/-- The operation `markAllMessagesAsRead`: store the current instant, flip every
loaded message's flag, then `processMessages`. -/
def markAllMessagesAsRead (w : World) (now : Nat) : World :=
  processMessages
    { messages := w.messages.map (fun m => { m with read := .val true })
      unreadCount := w.unreadCount
      lastChecked := some now }

/-- One load cycle (`loadMessagesFromLocal`/`loadMessagesFromPortal`):
map the fetched records against the persisted `lastCheckedAt`, replace
the message list, then `processMessages`.  A `MappingError` surfaces as
the error state. -/
def loadCycle (w : World) (records : List RawRecord) (now : Nat) :
    Except MappingError World :=
  match mapPortalDataToMessages w.lastChecked now records with
  | .ok msgs =>
    .ok (processMessages
      { messages := msgs, unreadCount := w.unreadCount, lastChecked := w.lastChecked })
  | .error e => .error e

/-- The `portalDataSource.regardingObject` block of the configuration
(each field optional). -/
structure RegardingObjectCfg where
  entityName : JsVal String
  entitySetName : JsVal String
  navigationProperty : JsVal String
deriving Repr, DecidableEq

/-- The slice of the configuration consulted by `getFieldName` and
`getRegardingObjectConfig`: the `fieldMapping` table, the publisher
prefix, and the `regardingObject` block. -/
structure AppConfig where
  fieldMapping : List (String × String)
  publisherPfx : JsVal String
  regardingObject : JsVal RegardingObjectCfg
deriving Repr, DecidableEq

/-- Lookup `mapping[fieldKey]`: `undefined` when the key is absent. -/
def lookupMapping (mapping : List (String × String)) (k : String) : JsVal String :=
  match mapping.find? (fun kv => kv.fst == k) with
  | some kv => .val kv.snd
  | none => .undefined

/-- Field-name resolution `getFieldName`: the `fieldMapping` override when truthy, else
`"{prefix}_{key}"` with the prefix defaulting to `"msfed"`. -/
def getFieldName (cfg : AppConfig) (fieldKey : String) : String :=
  let pfx := strOr cfg.publisherPfx "msfed"
  strOr (lookupMapping cfg.fieldMapping fieldKey) (pfx ++ "_" ++ fieldKey)

/-- The resolved regarding-object metadata. -/
structure RegardingResolved where
  entityName : String
  entitySetName : String
  navigationProperty : String
deriving Repr, DecidableEq

/-- Metadata resolution `getRegardingObjectConfig`: each field falls back to a name derived
from the publisher prefix (itself defaulting to `"msfed"`). -/
def getRegardingObjectConfig (cfg : AppConfig) : RegardingResolved :=
  let robj := cfg.regardingObject.getD ⟨.undefined, .undefined, .undefined⟩
  let pfx := strOr cfg.publisherPfx "msfed"
  { entityName := strOr robj.entityName (pfx ++ "_application")
    entitySetName := strOr robj.entitySetName (pfx ++ "_applications")
    navigationProperty :=
      strOr robj.navigationProperty ("regardingobjectid_" ++ pfx ++ "_application") }

/-- The join `filterParts.join(" and ")`, with the right-nested bracketing used
throughout the statements below. -/
def joinAnd : List String → String
  | [] => ""
  | [x] => x
  | x :: xs => x ++ (" and " ++ joinAnd xs)

/-- The mandatory inbound-direction predicate always seeded into
`filterParts`. -/
def mandatoryDirectionPredicate : String :=
  "adx_portalcommentdirectioncode eq 2"

/-- The `$filter` construction of `loadMessagesFromPortal`: the
mandatory predicate first, then the configured filter (when truthy)
wrapped in parentheses, joined with `" and "`. -/
def buildPortalFilter (readFilter : JsVal String) : String :=
  let filterParts :=
    [mandatoryDirectionPredicate] ++
      (if truthyStr readFilter then ["(" ++ (readFilter.getD "" ++ ")")] else [])
  joinAnd filterParts

/-- One entry of the reply's `adx_portalcomment_activity_parties`: the
role mask and the single `@odata.bind` property it carries. -/
structure PartyEntry where
  participationtypemask : Int
  bindProp : String
  bindValue : String
deriving Repr, DecidableEq

/-- The reply payload POSTed by `createReply`. -/
structure ReplyPayload where
  subject : String
  description : String
  directioncode : Int
  regardingBindProp : String
  regardingBindValue : String
  parties : List PartyEntry
deriving Repr, DecidableEq

/-- Outcome of `createReply`: the local-environment skip, a caught
error returned as `{success:false, message}`, or the payload handed to
the network POST. -/
inductive ReplyResult where
  | localSkip
  | failure (message : String)
  | posted (payload : ReplyPayload)
deriving Repr, DecidableEq

/-- The composer `createReply`, up to the network POST (whose own failure would be
returned as `{success:false}` after the payload is built and sent). -/
def createReply (isLocal hasPortalCfg createEnabled : Bool) (cfg : AppConfig)
    (w : World) (messageId replyText : String) : ReplyResult :=
  if isLocal || !hasPortalCfg then .localSkip
  else if !createEnabled then .failure "Create operations are not enabled"
  else
    match getMessage w messageId with
    | none => .failure "Original message not found"
    | some original =>
      if !truthyStr original.toContactId then
        .failure "Contact ID not found in original message. API configuration error - check $expand parameter."
      else if !truthyStr original.fromStaffId then
        .failure "Staff ID not found in original message. API configuration error - check _createdby_value."
      else
        let rc := getRegardingObjectConfig cfg
        .posted
          { subject := "Re: " ++ original.subject
            description := replyText
            directioncode := 1
            regardingBindProp := rc.navigationProperty ++ "@odata.bind"
            regardingBindValue :=
              "/" ++ (rc.entitySetName ++ ("(" ++ (jsStr original.regardingObjectId ++ ")")))
            parties :=
              [ { participationtypemask := 1
                  bindProp := "partyid_contact@odata.bind"
                  bindValue := "/contacts(" ++ (jsStr original.toContactId ++ ")") },
                { participationtypemask := 2
                  bindProp := "partyid_systemuser@odata.bind"
                  bindValue := "/systemusers(" ++ (jsStr original.fromStaffId ++ ")") } ] }

/-- Outcome of `updatePortalCommentReadStatus`: either the silent early
return taken when update operations are not enabled (the function logs
and returns normally, throwing nothing), or the PATCH request with its
payload.  Every thrown error is caught inside the function, so no
constructor represents a propagated failure. -/
inductive UpdateReadOutcome where
  | silentSkip
  | patched (hasReadFieldName : String) (hasRead : Bool) (statecode : Int)
deriving Repr, DecidableEq

/-- The operation `updatePortalCommentReadStatus`: when `operations.update` is absent
or not enabled it logs and returns without error and without any
network call; otherwise it PATCHes `{hasReadField: hasRead, statecode: 1}`. -/
def updatePortalCommentReadStatus (cfg : AppConfig)
    (updateOpsPresent updateEnabled : Bool) (hasRead : Bool) : UpdateReadOutcome :=
  if !updateOpsPresent || !updateEnabled then .silentSkip
  else .patched (getFieldName cfg "hasread") hasRead 1

/-! Concrete inputs used by the counterexamples and witnesses below. -/

/-- A raw record with every field absent. -/
def emptyRecord : RawRecord :=
  { from_ := .undefined, body := .undefined, id := .undefined, subject := .undefined
    date := .undefined, read := .undefined, category := .undefined, activityid := .undefined
    createdbyValue := .undefined, createdbyFormatted := .undefined
    activityParties := .undefined, createdon := .undefined, description := .undefined
    hasReadVal := .undefined, regardingobjectidValue := .undefined
    directioncode := .undefined, statecode := .undefined, statuscode := .undefined }

/-- A configuration with nothing supplied. -/
def emptyConfig : AppConfig :=
  { fieldMapping := [], publisherPfx := .undefined, regardingObject := .undefined }

/-- Legacy-shaped record dated at the epoch whose `read` field is
absent. -/
def c1LegacyRecord : RawRecord :=
  { emptyRecord with from_ := .val "Support", body := .val "hi"
                     id := .val "m1", date := .val 0 }

/-- A relationship-backed record carrying the server read flag `true`
and a creation date of 100, as served by the portal. -/
def c2FutureReadRecord : RawRecord :=
  { emptyRecord with
      activityid := .val "a1"
      createdbyValue := .val "staff-1"
      createdbyFormatted := .val "Staff One"
      activityParties := .val [⟨2, .val ⟨.val "contact-1", .val "Contact One"⟩⟩]
      createdon := .val 100
      description := .val "hello"
      hasReadVal := .val true }

/-- The state after loading `[c2FutureReadRecord]` into the initial
state at instant 10. -/
def c2World1 : World :=
  (loadCycle ⟨[], 0, none⟩ [c2FutureReadRecord] 10).toOption.getD ⟨[], 0, none⟩

/-- The state after then loading an empty record list at instant 20. -/
def c2World2 : World :=
  (loadCycle c2World1 [] 20).toOption.getD ⟨[], 0, none⟩

/-- An unread message dated 100 under id `m1`. -/
def c5Msg : Message :=
  { id := .val "m1", from_ := "Support", subject := "s", body := "b"
    date := .val 100, read := .val false, category := "general"
    regardingObjectId := .undefined, toContact := .undefined, toContactId := .undefined
    fromStaffId := .undefined, directionCode := .undefined, statecode := .undefined
    statuscode := .undefined, hasReadValue := .undefined }

/-- A state holding only `c5Msg`, with no persisted timestamp. -/
def c5World : World := ⟨[c5Msg], 1, none⟩

/-- Legacy-shaped record (absent `read`, date at the epoch) used to
break the markAll/reload round trip. -/
def c6LegacyRecord : RawRecord :=
  { emptyRecord with from_ := .val "Support", body := .val "hi"
                     id := .val "m1", date := .val 0 }

/-- A relationship-backed record with no server read flag, created at
instant 100 (in the future of the markAll instant 50 used below). -/
def c6PortalRecord : RawRecord :=
  { emptyRecord with
      activityid := .val "a2"
      createdbyValue := .val "staff-1"
      createdbyFormatted := .val "Staff One"
      activityParties := .val [⟨2, .val ⟨.val "contact-1", .val "Contact One"⟩⟩]
      createdon := .val 100
      description := .val "hello" }

/-- Legacy-shaped record with absent `read` and absent `category`. -/
def c9LegacyRecord : RawRecord :=
  { emptyRecord with from_ := .val "Ann", body := .val "text"
                     id := .val "m9", subject := .val "S", date := .val 7 }

/-- A message carrying both reply identities, used to exercise the
reply composer. -/
def c3Msg : Message :=
  { id := .val "a1", from_ := "Staff One", subject := "Question", body := "hello"
    date := .val 100, read := .val true, category := "portal-comment"
    regardingObjectId := .val "case-9", toContact := .val "Contact One"
    toContactId := .val "contact-1", fromStaffId := .val "staff-1"
    directionCode := .val 2, statecode := .val 0, statuscode := .val 1
    hasReadValue := .undefined }

/-- A state holding only `c3Msg`. -/
def c3World : World := ⟨[c3Msg], 0, none⟩

/-- A record whose party list carries two recipient-role parties, to
show the mapper takes the first. -/
def c4Parties : List RawParty :=
  [⟨1, .undefined⟩,
   ⟨2, .val ⟨.val "contact-first", .val "First Contact"⟩⟩,
   ⟨2, .val ⟨.val "contact-second", .val "Second Contact"⟩⟩]

/-- Relationship-backed record built on `c4Parties`. -/
def c4Record : RawRecord :=
  { emptyRecord with
      activityid := .val "a4"
      createdbyValue := .val "staff-4"
      createdbyFormatted := .val "Staff Four"
      activityParties := .val c4Parties
      createdon := .val 5
      description := .val "body" }

/-- The message `c4Record` maps to: it binds the first recipient-role
party, `contact-first`. -/
def c4Message : Message :=
  { id := .val "a4", from_ := "Staff Four", subject := "(No Subject)", body := "body"
    date := .val 5, read := .val false, category := "portal-comment"
    regardingObjectId := .undefined, toContact := .val "First Contact"
    toContactId := .val "contact-first", fromStaffId := .val "staff-4"
    directionCode := .undefined, statecode := .undefined, statuscode := .undefined
    hasReadValue := .undefined }

/-- Relationship-backed record with no recipient-role party at all. -/
def c4NoRecipRecord : RawRecord :=
  { emptyRecord with
      activityid := .val "a5"
      createdbyValue := .val "staff-5"
      createdbyFormatted := .val "Staff Five"
      activityParties := .val [⟨1, .undefined⟩]
      createdon := .val 5
      description := .val "body" }

/-- Relationship-backed record with no server read flag, created at 100. -/
def c1PortalRecord : RawRecord :=
  { emptyRecord with
      activityid := .val "a0"
      createdbyValue := .val "staff-0"
      createdbyFormatted := .val "Staff Zero"
      activityParties := .val [⟨2, .val ⟨.val "contact-0", .val "Contact Zero"⟩⟩]
      createdon := .val 100
      description := .val "x" }

/-- The message `c1PortalRecord` maps to against `lastCheckedAt = 150`. -/
def c1PortalMessage : Message :=
  { id := .val "a0", from_ := "Staff Zero", subject := "(No Subject)", body := "x"
    date := .val 100, read := .val true, category := "portal-comment"
    regardingObjectId := .undefined, toContact := .val "Contact Zero"
    toContactId := .val "contact-0", fromStaffId := .val "staff-0"
    directionCode := .undefined, statecode := .undefined, statuscode := .undefined
    hasReadValue := .undefined }

/-- The state after loading `[c6LegacyRecord]` into the initial state at
instant 10. -/
def c6LegacyWorld1 : World :=
  (loadCycle ⟨[], 0, none⟩ [c6LegacyRecord] 10).toOption.getD ⟨[], 0, none⟩

/-- The state after loading `[c6PortalRecord]` into the initial state at
instant 10. -/
def c6World1 : World :=
  (loadCycle ⟨[], 0, none⟩ [c6PortalRecord] 10).toOption.getD ⟨[], 0, none⟩

/-- The state after marking all read at instant 50 and reloading the
same record at instant 60. -/
def c6World3 : World :=
  (loadCycle (markAllMessagesAsRead c6World1 50) [c6PortalRecord] 60).toOption.getD ⟨[], 0, none⟩

/-! Shared helper lemmas. -/

theorem strOr_of_falsy (v : JsVal String) (d : String) (h : truthyStr v = false) :
    strOr v d = d := by
  cases v with
  | undefined => rfl
  | null => rfl
  | val s =>
    simp only [truthyStr, ne_eq, decide_not, Bool.not_eq_false', decide_eq_true_eq] at h
    simp [strOr, h]

theorem strOr_of_truthy (s d : String) (h : s ≠ "") :
    strOr (.val s) d = s := by
  simp [strOr, h]

theorem foldl_maxBy_mem {α : Type} (f : α → Nat) (h : α) (t : List α) :
    t.foldl (fun latest msg => if f msg > f latest then msg else latest) h ∈ h :: t := by
  induction t generalizing h with
  | nil => simp
  | cons y t ih =>
    rw [List.foldl_cons]
    rcases List.mem_cons.mp (ih (if f y > f h then y else h)) with h1 | h2
    · by_cases hc : f y > f h
      · rw [if_pos hc] at h1 ⊢
        rw [h1]
        exact List.mem_cons_of_mem _ (List.mem_cons_self _ _)
      · rw [if_neg hc] at h1 ⊢
        rw [h1]
        exact List.mem_cons_self _ _
    · exact List.mem_cons_of_mem _ (List.mem_cons_of_mem _ h2)

theorem foldl_maxBy_ge {α : Type} (f : α → Nat) (h : α) (t : List α) :
    ∀ x ∈ h :: t, f x ≤ f (t.foldl (fun latest msg => if f msg > f latest then msg else latest) h) := by
  induction t generalizing h with
  | nil =>
    intro x hx
    rcases List.mem_cons.mp hx with rfl | hx'
    · exact le_refl _
    · simp at hx'
  | cons y t ih =>
    intro x hx
    rw [List.foldl_cons]
    have hstep : ∀ z, z = h ∨ z = y → f z ≤ f (if f y > f h then y else h) := by
      intro z hz
      by_cases hc : f y > f h
      · rw [if_pos hc]
        rcases hz with rfl | rfl
        · exact le_of_lt hc
        · exact le_refl _
      · rw [if_neg hc]
        rcases hz with rfl | rfl
        · exact le_refl _
        · exact le_of_not_lt hc
    rcases List.mem_cons.mp hx with rfl | hx'
    · exact le_trans (hstep x (Or.inl rfl)) (ih _ _ (List.mem_cons_self _ _))
    · rcases List.mem_cons.mp hx' with rfl | hx''
      · exact le_trans (hstep x (Or.inr rfl)) (ih _ _ (List.mem_cons_self _ _))
      · exact ih _ x (List.mem_cons_of_mem _ hx'')

theorem maxByDate_mem (h : Message) (t : List Message) : maxByDate h t ∈ h :: t := by
  unfold maxByDate
  exact foldl_maxBy_mem (fun m => m.date.getD 0) h t

theorem maxByDate_ge (h : Message) (t : List Message) :
    ∀ x ∈ h :: t, x.date.getD 0 ≤ (maxByDate h t).date.getD 0 := by
  unfold maxByDate
  exact foldl_maxBy_ge (fun m => m.date.getD 0) h t

theorem processMessages_messages (w : World) :
    (processMessages w).messages = w.messages := by
  unfold processMessages
  split
  · rfl
  · split <;> rfl

theorem processMessages_unreadCount (w : World) :
    (processMessages w).unreadCount = unreadOf w.messages := by
  unfold processMessages
  split
  · rfl
  · split <;> rfl

theorem processMessages_lc_mono (w : World) :
    w.lastChecked.getD 0 ≤ (processMessages w).lastChecked.getD 0 := by
  unfold processMessages
  split
  · exact le_refl _
  · split
    · next hgt => exact le_of_lt hgt
    · exact le_refl _

theorem processMessages_lc_ub (w : World) :
    ∀ m ∈ w.messages, truthyBool m.read = true → m.date.isPresent = true →
      m.date.getD 0 ≤ (processMessages w).lastChecked.getD 0 := by
  intro m hm hr hd
  have hmem : m ∈ readWithDate w.messages := by
    simp [readWithDate, List.mem_filter, hm, hr, hd]
  unfold processMessages
  split
  · next hfil => rw [hfil] at hmem; simp at hmem
  · next h t hfil =>
    rw [hfil] at hmem
    have hle := maxByDate_ge h t m hmem
    split
    · next hgt => simpa using hle
    · next hngt =>
      have hsame : ({ w with unreadCount := unreadOf w.messages } : World).lastChecked
          = w.lastChecked := rfl
      rw [hsame]
      omega

theorem processMessages_lc_cases (w : World) :
    (processMessages w).lastChecked = w.lastChecked ∨
      ∃ m ∈ w.messages, truthyBool m.read = true ∧ m.date.isPresent = true ∧
        (processMessages w).lastChecked = some (m.date.getD 0) ∧
        w.lastChecked.getD 0 < m.date.getD 0 := by
  unfold processMessages
  split
  · left; rfl
  · next h t hfil =>
    split
    · next hgt =>
      right
      have hmem : maxByDate h t ∈ readWithDate w.messages := by
        rw [hfil]; exact maxByDate_mem h t
      have hmem' := List.mem_filter.mp hmem
      refine ⟨maxByDate h t, hmem'.1, ?_, ?_, rfl, hgt⟩
      · exact (Bool.and_eq_true _ _ |>.mp hmem'.2).1
      · exact (Bool.and_eq_true _ _ |>.mp hmem'.2).2
    · left; rfl

theorem processMessages_lc_some (w : World) (x : Nat) (h : w.lastChecked = some x) :
    ∃ y, (processMessages w).lastChecked = some y ∧ x ≤ y := by
  rcases processMessages_lc_cases w with hc | ⟨m, _, _, _, hc, hlt⟩
  · exact ⟨x, hc.trans h, le_refl x⟩
  · refine ⟨m.date.getD 0, hc, ?_⟩
    rw [h] at hlt
    exact le_of_lt hlt

theorem setReadFirst_find (msgs : List Message) (mid : String) (m : Message)
    (h : msgs.find? (fun x => x.id == .val mid) = some m) :
    (setReadFirst msgs mid).find? (fun x => x.id == .val mid)
      = some { m with read := .val true } := by
  induction msgs with
  | nil => simp at h
  | cons a l ih =>
    by_cases hc : (a.id == JsVal.val mid) = true
    · simp only [List.find?, hc] at h
      injection h with h
      subst h
      simp only [setReadFirst, if_pos hc]
      simp only [List.find?, hc]
    · have hc' : (a.id == JsVal.val mid) = false := by
        exact Bool.not_eq_true _ ▸ eq_false_of_ne_true hc
      simp only [List.find?, hc'] at h
      simp only [setReadFirst, if_neg hc]
      simp only [List.find?, hc']
      exact ih h

theorem setReadFirst_mem (msgs : List Message) (mid : String) (m x : Message)
    (hfind : msgs.find? (fun y => y.id == .val mid) = some m)
    (hx : x ∈ setReadFirst msgs mid) :
    x ∈ msgs ∨ x = { m with read := .val true } := by
  induction msgs with
  | nil => simp [setReadFirst] at hx
  | cons a l ih =>
    simp only [setReadFirst] at hx
    by_cases hc : (a.id == JsVal.val mid) = true
    · simp only [List.find?, hc] at hfind
      injection hfind with hfind
      subst hfind
      rw [if_pos hc] at hx
      rcases List.mem_cons.mp hx with rfl | hx'
      · exact Or.inr rfl
      · exact Or.inl (List.mem_cons_of_mem _ hx')
    · have hc' : (a.id == JsVal.val mid) = false :=
        Bool.not_eq_true _ ▸ eq_false_of_ne_true hc
      simp only [List.find?, hc'] at hfind
      rw [if_neg hc] at hx
      rcases List.mem_cons.mp hx with rfl | hx'
      · exact Or.inl (List.mem_cons_self _ _)
      · rcases ih hfind hx' with h1 | h2
        · exact Or.inl (List.mem_cons_of_mem _ h1)
        · exact Or.inr h2

theorem getMessage_eq_of_messages_eq (w w' : World) (mid : String)
    (h : w.messages = w'.messages) : getMessage w mid = getMessage w' mid := by
  unfold getMessage
  rw [h]

theorem pm_lc_pinned (w : World) (d : Nat)
    (hub : ∀ x ∈ w.messages, truthyBool x.read = true → x.date.getD 0 ≤ d)
    (hmem : ∃ x ∈ w.messages, truthyBool x.read = true ∧ x.date = .val d)
    (hlc : w.lastChecked.getD 0 < d) :
    (processMessages w).lastChecked = some d := by
  rcases hmem with ⟨x, hx, hxr, hxd⟩
  have hd1 : d ≤ (processMessages w).lastChecked.getD 0 := by
    have hub' := processMessages_lc_ub w x hx hxr (by rw [hxd]; rfl)
    rw [hxd] at hub'
    exact hub'
  rcases processMessages_lc_cases w with hc | ⟨y, hy, hyr, hyp, hc, hygt⟩
  · rw [hc] at hd1; omega
  · have hyd : y.date.getD 0 ≤ d := hub y hy hyr
    have hgd : (processMessages w).lastChecked.getD 0 = y.date.getD 0 := by rw [hc]; rfl
    have hyd2 : y.date.getD 0 = d := by omega
    rw [hc, hyd2]

theorem pm_lc_fixed (w : World)
    (hub : ∀ x ∈ w.messages, truthyBool x.read = true →
      x.date.getD 0 ≤ w.lastChecked.getD 0) :
    (processMessages w).lastChecked = w.lastChecked := by
  rcases processMessages_lc_cases w with hc | ⟨y, hy, hyr, hyp, hc, hygt⟩
  · exact hc
  · have := hub y hy hyr
    omega

theorem updateMessageReadStatus_messages (isLocal hasPortalCfg : Bool) (w : World)
    (mid : String) (b : Bool) :
    (updateMessageReadStatus isLocal hasPortalCfg w mid b).messages = w.messages := by
  unfold updateMessageReadStatus
  split
  · rfl
  · split
    · split
      · split <;> rfl
      · rfl
    · rfl

theorem updateMessageReadStatus_lc_mono (isLocal hasPortalCfg : Bool) (w : World)
    (mid : String) (b : Bool) :
    w.lastChecked.getD 0 ≤ (updateMessageReadStatus isLocal hasPortalCfg w mid b).lastChecked.getD 0 := by
  unfold updateMessageReadStatus
  split
  · exact le_refl _
  · split
    · split
      · split
        · next hgt => simpa using le_of_lt hgt
        · exact le_refl _
      · exact le_refl _
    · exact le_refl _

theorem updateMessageReadStatus_found (isLocal hasPortalCfg : Bool) (w : World)
    (mid : String) (mm : Message) (hm : getMessage w mid = some mm) :
    updateMessageReadStatus isLocal hasPortalCfg w mid true
      = if (isLocal || !hasPortalCfg) = true then w
        else if mm.date.getD 0 > w.lastChecked.getD 0
          then { w with lastChecked := some (mm.date.getD 0) } else w := by
  unfold updateMessageReadStatus
  by_cases hloc : (isLocal || !hasPortalCfg) = true
  · rw [if_pos hloc, if_pos hloc]
  · rw [if_neg hloc, if_neg hloc, hm]
    rfl

theorem mapRecords_ok_mem_rev (f : RawRecord → Except MappingError Message)
    (l : List RawRecord) (out : List Message) (h : mapRecords f l = .ok out) :
    ∀ m ∈ out, ∃ r ∈ l, f r = .ok m := by
  induction l generalizing out with
  | nil =>
    simp only [mapRecords] at h
    injection h with h
    subst h
    intro m hm
    simp at hm
  | cons r rs ih =>
    simp only [mapRecords] at h
    cases hfr : f r with
    | error e => rw [hfr] at h; exact absurd h (by simp)
    | ok m0 =>
      rw [hfr] at h
      cases hrest : mapRecords f rs with
      | error e => rw [hrest] at h; exact absurd h (by simp)
      | ok ms =>
        rw [hrest] at h
        injection h with h
        subst h
        intro m hm
        rcases List.mem_cons.mp hm with rfl | hm'
        · exact ⟨r, List.mem_cons_self _ _, hfr⟩
        · rcases ih ms hrest m hm' with ⟨r', hr', hfr'⟩
          exact ⟨r', List.mem_cons_of_mem _ hr', hfr'⟩

theorem mapRecords_ok_mem_fwd (f : RawRecord → Except MappingError Message)
    (l : List RawRecord) (out : List Message) (h : mapRecords f l = .ok out) :
    ∀ r ∈ l, ∃ m ∈ out, f r = .ok m := by
  induction l generalizing out with
  | nil => intro r hr; simp at hr
  | cons r rs ih =>
    simp only [mapRecords] at h
    cases hfr : f r with
    | error e => rw [hfr] at h; exact absurd h (by simp)
    | ok m0 =>
      rw [hfr] at h
      cases hrest : mapRecords f rs with
      | error e => rw [hrest] at h; exact absurd h (by simp)
      | ok ms =>
        rw [hrest] at h
        injection h with h
        subst h
        intro r' hr'
        rcases List.mem_cons.mp hr' with rfl | hr''
        · exact ⟨m0, List.mem_cons_self _ _, hfr⟩
        · rcases ih ms hrest r' hr'' with ⟨m', hm', hfr'⟩
          exact ⟨m', List.mem_cons_of_mem _ hm', hfr'⟩

theorem mapPortalComment_legacy (lastChecked : Option Nat) (now : Nat) (c : RawRecord)
    (h : legacyShape c = true) :
    mapPortalComment lastChecked now c = .ok
      { id := c.id, from_ := c.from_.getD "", subject := strOr c.subject "(No Subject)",
        body := strOr c.body "", date := c.date,
        read := match c.read with | .undefined => .val false | r => r,
        category := strOr c.category "general",
        regardingObjectId := .undefined, toContact := .undefined, toContactId := .undefined,
        fromStaffId := .undefined, directionCode := .undefined, statecode := .undefined,
        statuscode := .undefined, hasReadValue := .undefined } := by
  unfold mapPortalComment
  rw [if_pos h]

theorem mapPortalComment_portal_ok (lastChecked : Option Nat) (now : Nat)
    (c : RawRecord) (m : Message) (hleg : legacyShape c = false)
    (hok : mapPortalComment lastChecked now c = .ok m) :
    m.date = .val (c.createdon.getD now)
      ∧ m.read = .val (portalIsRead lastChecked now c)
      ∧ m.category = "portal-comment" := by
  unfold mapPortalComment at hok
  rw [if_neg (by simp [hleg])] at hok
  split at hok
  · simp at hok
  · split at hok
    · split at hok
      · simp at hok
      · split at hok
        · simp at hok
        · split at hok
          · simp at hok
          · split at hok
            · simp at hok
            · injection hok with hok
              subst hok
              exact ⟨rfl, rfl, rfl⟩
    · simp at hok

theorem mapPortalComment_noRecipient (lastChecked : Option Nat) (now : Nat)
    (c : RawRecord) (ps : List RawParty)
    (hleg : legacyShape c = false) (hcb : truthyStr c.createdbyValue = true)
    (hp : c.activityParties = .val ps) (hne : ps ≠ [])
    (hfind : ps.find? recipientPred = none) :
    mapPortalComment lastChecked now c = .error .contactPartyMissing := by
  have hemp : ps.isEmpty = false := by
    cases ps with
    | nil => exact absurd rfl hne
    | cons a l => rfl
  simp [mapPortalComment, hleg, hcb, hp, hemp, hfind]

theorem mapPortalComment_toParty (lastChecked : Option Nat) (now : Nat)
    (c : RawRecord) (m : Message) (ps : List RawParty)
    (hleg : legacyShape c = false)
    (hp : c.activityParties = .val ps)
    (hok : mapPortalComment lastChecked now c = .ok m) :
    ∃ p, ps.find? recipientPred = some p ∧
      m.toContactId = (p.partyid_contact.getD ⟨.undefined, .undefined⟩).contactid ∧
      m.toContact = (p.partyid_contact.getD ⟨.undefined, .undefined⟩).fullname := by
  unfold mapPortalComment at hok
  rw [if_neg (by simp [hleg])] at hok
  split at hok
  · simp at hok
  · rw [hp] at hok
    simp only [] at hok
    split at hok
    · simp at hok
    · split at hok
      · simp at hok
      · next p hfind =>
        split at hok
        · simp at hok
        · split at hok
          · simp at hok
          · injection hok with hok
            subst hok
            exact ⟨p, hfind, rfl, rfl⟩

/-! Claim theorems. -/

/-- Claim C1, counterexample: on a legacy-shaped record whose `read`
field is absent and whose date is the epoch, the mapper derives
`read = false`, while the claimed rule `read = (date <= lastCheckedAt)`
(with `lastCheckedAt` defaulting to the epoch when never set) yields
`true`: the stated precedence does not hold for legacy-shaped records. -/
theorem c1_counterexample :
    mapPortalComment none 0 c1LegacyRecord
        = .ok { id := .val "m1", from_ := "Support", subject := "(No Subject)",
                body := "hi", date := .val 0, read := .val false, category := "general",
                regardingObjectId := .undefined, toContact := .undefined, toContactId := .undefined,
                fromStaffId := .undefined, directionCode := .undefined, statecode := .undefined,
                statuscode := .undefined, hasReadValue := .undefined }
      ∧ c1LegacyRecord.hasReadVal = .undefined
      ∧ c1LegacyRecord.read = .undefined
      ∧ c1LegacyRecord.date = .val 0
      ∧ decide ((0 : Nat) ≤ (none : Option Nat).getD 0) = true
      ∧ JsVal.val false ≠ JsVal.val true := by
  exact ⟨rfl, rfl, rfl, rfl, rfl, by decide⟩

/-- Claim C1, amended: the stated read-flag precedence (server flag
verbatim when present, otherwise `date <= lastCheckedAt` with the epoch
default) holds for every relationship-backed record accepted by the
mapper, where the compared date is `createdon` when present; a
legacy-shaped record instead takes its own `read` field verbatim when
defined and `false` otherwise. -/
theorem c1_amended (lastChecked : Option Nat) (now : Nat) (c : RawRecord) (m : Message) :
    (legacyShape c = false → mapPortalComment lastChecked now c = .ok m →
       (∀ b, c.hasReadVal = .val b → m.read = .val b)
       ∧ (c.hasReadVal.isPresent = false →
            m.read = .val (decide (derivDate c now ≤ lastChecked.getD 0)))
       ∧ (∀ d, c.createdon = .val d → m.date = .val d ∧ derivDate c now = d))
    ∧ (legacyShape c = true → mapPortalComment lastChecked now c = .ok m →
       m.read = match c.read with | .undefined => .val false | r => r) := by
  constructor
  · intro hleg hok
    obtain ⟨hdate, hread, -⟩ := mapPortalComment_portal_ok lastChecked now c m hleg hok
    refine ⟨?_, ?_, ?_⟩
    · intro b hb
      rw [hread]
      simp [portalIsRead, hb]
    · intro hnp
      rw [hread]
      cases hv : c.hasReadVal with
      | undefined => simp [portalIsRead, hv]
      | null => simp [portalIsRead, hv]
      | val b => rw [hv] at hnp; simp [JsVal.isPresent] at hnp
    · intro d hd
      constructor
      · rw [hdate, hd]; rfl
      · simp [derivDate, hd]
  · intro hleg hok
    rw [mapPortalComment_legacy lastChecked now c hleg] at hok
    injection hok with hok
    subst hok
    rfl

/-- Claim C1, witness: the amended rule evaluated on a concrete
relationship-backed record with no server flag, created at 100 against
`lastCheckedAt = 150`: the derived flag is `100 <= 150 = true`. -/
theorem c1_amended_witness :
    legacyShape c1PortalRecord = false
    ∧ mapPortalComment (some 150) 7 c1PortalRecord = .ok c1PortalMessage
    ∧ c1PortalRecord.hasReadVal.isPresent = false
    ∧ c1PortalMessage.read
        = .val (decide (derivDate c1PortalRecord 7 ≤ (some 150 : Option Nat).getD 0)) := by
  refine ⟨rfl, rfl, rfl, ?_⟩
  exact ((c1_amended (some 150) 7 c1PortalRecord c1PortalMessage).1 rfl rfl).2.1 rfl

/-- Claim C9, counterexample: a legacy-shaped record with absent
`read` and absent `category` maps to `read = false` and
`category = "general"`: substituted defaults on fields other than
`subject`, contradicting the claim that only `subject` is defaulted. -/
theorem c9_counterexample :
    legacyShape c9LegacyRecord = true
    ∧ c9LegacyRecord.read = .undefined
    ∧ c9LegacyRecord.category = .undefined
    ∧ mapPortalComment none 0 c9LegacyRecord
        = .ok { id := .val "m9", from_ := "Ann", subject := "S", body := "text",
                date := .val 7, read := .val false, category := "general",
                regardingObjectId := .undefined, toContact := .undefined, toContactId := .undefined,
                fromStaffId := .undefined, directionCode := .undefined, statecode := .undefined,
                statuscode := .undefined, hasReadValue := .undefined }
      ∧ ("general" : String) ≠ "" := by
  exact ⟨rfl, rfl, rfl, rfl, by decide⟩

/-- Claim C9, amended: a legacy-shaped record passes through with `id`,
`from`, `body` and `date` verbatim; an absent (or null or empty)
subject defaults to the placeholder, an absent `read` defaults to
`false` (a defined `read`, including `null`, is carried verbatim), and
an absent, null, or empty `category` defaults to `"general"` (a
non-empty one is carried). -/
theorem c9_legacy_passthrough (lastChecked : Option Nat) (now : Nat) (c : RawRecord)
    (h : legacyShape c = true) :
    ∀ m, mapPortalComment lastChecked now c = .ok m →
      m.id = c.id ∧ m.date = c.date
      ∧ (∀ s, c.from_ = .val s → m.from_ = s)
      ∧ (∀ s, c.body = .val s → s ≠ "" → m.body = s)
      ∧ (∀ b, c.read = .val b → m.read = .val b)
      ∧ (c.read = .null → m.read = .null)
      ∧ (c.read = .undefined → m.read = .val false)
      ∧ (∀ s, s ≠ "" → c.category = .val s → m.category = s)
      ∧ (c.category = .undefined → m.category = "general")
      ∧ (∀ s, s ≠ "" → c.subject = .val s → m.subject = s)
      ∧ (c.subject = .undefined → m.subject = "(No Subject)")
      ∧ (c.category = .null → m.category = "general")
      ∧ (c.category = .val "" → m.category = "general")
      ∧ (c.subject = .null → m.subject = "(No Subject)")
      ∧ (c.subject = .val "" → m.subject = "(No Subject)") := by
  intro m hok
  rw [mapPortalComment_legacy lastChecked now c h] at hok
  injection hok with hok
  subst hok
  refine ⟨rfl, rfl, ?_, ?_, ?_, ?_, ?_, ?_, ?_, ?_, ?_, ?_, ?_, ?_, ?_⟩
  · intro s hs; rw [hs]; rfl
  · intro s hs hs0; rw [hs]; exact strOr_of_truthy s "" hs0
  · intro b hb; rw [hb]
  · intro hb; rw [hb]
  · intro hb; rw [hb]
  · intro s hs0 hs; rw [hs]; exact strOr_of_truthy s "general" hs0
  · intro hc; rw [hc]; rfl
  · intro s hs0 hs; rw [hs]; exact strOr_of_truthy s "(No Subject)" hs0
  · intro hc; rw [hc]; rfl
  · intro hc; rw [hc]; rfl
  · intro hc; rw [hc]; rfl
  · intro hc; rw [hc]; rfl
  · intro hc; rw [hc]; rfl

/-- Claim C9, witness: the amended passthrough evaluated on the
concrete legacy record `c9LegacyRecord` (present subject carried, read
and category defaulted). -/
theorem c9_legacy_passthrough_witness :
    legacyShape c9LegacyRecord = true
    ∧ mapPortalComment none 3 c9LegacyRecord
        = .ok { id := .val "m9", from_ := "Ann", subject := "S", body := "text",
                date := .val 7, read := .val false, category := "general",
                regardingObjectId := .undefined, toContact := .undefined, toContactId := .undefined,
                fromStaffId := .undefined, directionCode := .undefined, statecode := .undefined,
                statuscode := .undefined, hasReadValue := .undefined }
      ∧ ({ id := .val "m9", from_ := "Ann", subject := "S", body := "text",
           date := .val 7, read := .val false, category := "general",
           regardingObjectId := .undefined, toContact := .undefined, toContactId := .undefined,
           fromStaffId := .undefined, directionCode := .undefined, statecode := .undefined,
           statuscode := .undefined, hasReadValue := .undefined } : Message).subject = "S" := by
  refine ⟨rfl, rfl, ?_⟩
  exact (c9_legacy_passthrough none 3 c9LegacyRecord rfl _ rfl).2.2.2.2.2.2.2.2.2.1
    "S" (by decide) rfl

/-- Claim C2, counterexample: loading a future-dated record already
read on the server advances `lastCheckedAt` to 100; after the state
then reloads an empty record list (keeping the stored 100),
`markAllMessagesAsRead` at the earlier current instant 50 stores 50 —
strictly earlier than the stored value, so the persisted timestamp is
not monotone across every operation sequence. -/
theorem c2_counterexample :
    loadCycle ⟨[], 0, none⟩ [c2FutureReadRecord] 10 = .ok c2World1
    ∧ loadCycle c2World1 [] 20 = .ok c2World2
    ∧ c2World2.lastChecked = some 100
    ∧ (markAllMessagesAsRead c2World2 50).lastChecked = some 50
    ∧ 50 < 100 := by
  exact ⟨rfl, rfl, rfl, rfl, by omega⟩

/-- Claim C2, amended: `lastCheckedAt` never decreases under
`processMessages`, `updateMessageReadStatus`, `markMessageAsRead`, or a
successful load cycle; `markAllMessagesAsRead` stores at least the
markAll instant, and therefore also never decreases the value provided
the stored value does not lie in the future of the clock instant. -/
theorem c2_amended (w : World) (records : List RawRecord) (mid : String)
    (isLocal hasPortalCfg isRead : Bool) (tNow tLoad : Nat)
    (hle : w.lastChecked.getD 0 ≤ tNow) :
    w.lastChecked.getD 0 ≤ (processMessages w).lastChecked.getD 0
    ∧ w.lastChecked.getD 0
        ≤ (updateMessageReadStatus isLocal hasPortalCfg w mid isRead).lastChecked.getD 0
    ∧ w.lastChecked.getD 0
        ≤ (markMessageAsRead isLocal hasPortalCfg w mid).lastChecked.getD 0
    ∧ (∀ w', loadCycle w records tLoad = .ok w' →
         w.lastChecked.getD 0 ≤ w'.lastChecked.getD 0)
    ∧ tNow ≤ (markAllMessagesAsRead w tNow).lastChecked.getD 0
    ∧ w.lastChecked.getD 0 ≤ (markAllMessagesAsRead w tNow).lastChecked.getD 0 := by
  have hmark : tNow ≤ (markAllMessagesAsRead w tNow).lastChecked.getD 0 := by
    unfold markAllMessagesAsRead
    exact processMessages_lc_mono
      { messages := w.messages.map (fun m => { m with read := .val true })
        unreadCount := w.unreadCount
        lastChecked := some tNow }
  refine ⟨processMessages_lc_mono w,
    updateMessageReadStatus_lc_mono isLocal hasPortalCfg w mid isRead, ?_, ?_,
    hmark, le_trans hle hmark⟩
  · unfold markMessageAsRead
    split
    · exact le_refl _
    · split
      · exact le_refl _
      · calc w.lastChecked.getD 0
            ≤ (updateMessageReadStatus isLocal hasPortalCfg
                { w with messages := setReadFirst w.messages mid } mid true).lastChecked.getD 0 :=
              updateMessageReadStatus_lc_mono isLocal hasPortalCfg
                { w with messages := setReadFirst w.messages mid } mid true
          _ ≤ _ := processMessages_lc_mono _
  · intro w' hw'
    unfold loadCycle at hw'
    cases hmap : mapPortalDataToMessages w.lastChecked tLoad records with
    | error e => rw [hmap] at hw'; simp at hw'
    | ok msgs =>
      rw [hmap] at hw'
      injection hw' with hw'
      subst hw'
      exact processMessages_lc_mono
        { messages := msgs, unreadCount := w.unreadCount, lastChecked := w.lastChecked }

/-- Claim C2, witness: the amended monotonicity applied at a concrete
state holding the stored value 7 and the clock instant 9. -/
theorem c2_amended_witness :
    ((some 7 : Option Nat).getD 0 ≤ 9)
    ∧ (⟨[c5Msg], 1, some 7⟩ : World).lastChecked.getD 0
        ≤ (markAllMessagesAsRead ⟨[c5Msg], 1, some 7⟩ 9).lastChecked.getD 0
    ∧ (⟨[c5Msg], 1, some 7⟩ : World).lastChecked.getD 0
        ≤ (processMessages ⟨[c5Msg], 1, some 7⟩).lastChecked.getD 0 := by
  have h := c2_amended ⟨[c5Msg], 1, some 7⟩ [] "m1" false true true 9 0 (by decide)
  exact ⟨by decide, h.2.2.2.2.2, h.1⟩

/-- Claim C6, counterexample: a legacy-shaped record with no read
field stays unread after `markAllMessagesAsRead` followed by a reload:
the legacy branch derives `read = false` whenever the record's own
`read` field is absent, ignoring `lastCheckedAt` entirely, so the
round trip does not yield zero unread for legacy-shaped records. -/
theorem c6_counterexample :
    legacyShape c6LegacyRecord = true
    ∧ c6LegacyRecord.read = .undefined
    ∧ c6LegacyRecord.hasReadVal = .undefined
    ∧ loadCycle ⟨[], 0, none⟩ [c6LegacyRecord] 10 = .ok c6LegacyWorld1
    ∧ (loadCycle (markAllMessagesAsRead c6LegacyWorld1 50) [c6LegacyRecord] 60).map
        World.unreadCount = .ok 1
    ∧ (1 : Nat) ≠ 0 := by
  exact ⟨rfl, rfl, rfl, rfl, rfl, by omega⟩

/-- Claim C6, amended: for relationship-backed records that carry no
server read flag but do carry a creation date, `markAllMessagesAsRead`
followed by a reload of the same records yields zero unread messages,
regardless of the records' dates (including dates in the future of the
markAll instant). -/
theorem c6_amended (w0 : World) (records : List RawRecord)
    (now1 tMark now2 : Nat) (w1 w3 : World)
    (hrec : ∀ r ∈ records, legacyShape r = false ∧ r.hasReadVal.isPresent = false
              ∧ r.createdon.isPresent = true)
    (h1 : loadCycle w0 records now1 = .ok w1)
    (h2 : loadCycle (markAllMessagesAsRead w1 tMark) records now2 = .ok w3) :
    w3.unreadCount = 0 := by
  unfold loadCycle at h1
  cases hmap1 : mapPortalDataToMessages w0.lastChecked now1 records with
  | error e => rw [hmap1] at h1; simp at h1
  | ok msgs1 =>
    rw [hmap1] at h1
    injection h1 with h1
    have hw1msgs : w1.messages = msgs1 := by
      rw [← h1]
      exact processMessages_messages _
    have hL : ∀ r ∈ records, ∀ d, r.createdon = .val d →
        d ≤ (markAllMessagesAsRead w1 tMark).lastChecked.getD 0 := by
      intro r hr d hd
      obtain ⟨m1, hm1, hok1⟩ := mapRecords_ok_mem_fwd _ records msgs1 hmap1 r hr
      obtain ⟨hdate, -, -⟩ :=
        mapPortalComment_portal_ok w0.lastChecked now1 r m1 (hrec r hr).1 hok1
      have hmdate : m1.date = .val d := by rw [hdate, hd]; rfl
      unfold markAllMessagesAsRead
      have hmem : ({ m1 with read := .val true } : Message)
          ∈ w1.messages.map (fun m => { m with read := .val true }) := by
        rw [hw1msgs]
        exact List.mem_map_of_mem _ hm1
      have hub := processMessages_lc_ub
        { messages := w1.messages.map (fun m => { m with read := .val true })
          unreadCount := w1.unreadCount
          lastChecked := some tMark }
        { m1 with read := .val true } hmem rfl (by rw [show ({ m1 with read := JsVal.val true } : Message).date = m1.date from rfl, hmdate]; rfl)
      rw [show ({ m1 with read := JsVal.val true } : Message).date = m1.date from rfl,
        hmdate] at hub
      exact hub
    unfold loadCycle at h2
    cases hmap2 : mapPortalDataToMessages
        (markAllMessagesAsRead w1 tMark).lastChecked now2 records with
    | error e => rw [hmap2] at h2; simp at h2
    | ok msgs2 =>
      rw [hmap2] at h2
      injection h2 with h2
      have hallread : ∀ m ∈ msgs2, m.read = JsVal.val true := by
        intro m hm
        obtain ⟨r, hr, hok2⟩ := mapRecords_ok_mem_rev _ records msgs2 hmap2 m hm
        obtain ⟨-, hread, -⟩ := mapPortalComment_portal_ok
          (markAllMessagesAsRead w1 tMark).lastChecked now2 r m (hrec r hr).1 hok2
        obtain ⟨d, hd⟩ : ∃ d, r.createdon = .val d := by
          have hp := (hrec r hr).2.2
          cases hcd : r.createdon with
          | undefined => rw [hcd] at hp; simp [JsVal.isPresent] at hp
          | null => rw [hcd] at hp; simp [JsVal.isPresent] at hp
          | val d => exact ⟨d, rfl⟩
        have hderiv : derivDate r now2 = d := by simp [derivDate, hd]
        have hpr : portalIsRead (markAllMessagesAsRead w1 tMark).lastChecked now2 r = true := by
          unfold portalIsRead
          cases hv : r.hasReadVal with
          | undefined =>
            simp only [hderiv]
            exact decide_eq_true (hL r hr d hd)
          | null =>
            simp only [hderiv]
            exact decide_eq_true (hL r hr d hd)
          | val b =>
            have hp := (hrec r hr).2.1
            rw [hv] at hp
            simp [JsVal.isPresent] at hp
        rw [hread, hpr]
      have hfil : msgs2.filter (fun m => !truthyBool m.read) = [] := by
        rw [List.filter_eq_nil_iff]
        intro m hm
        rw [hallread m hm]
        simp [truthyBool]
      rw [← h2, processMessages_unreadCount]
      show unreadOf msgs2 = 0
      unfold unreadOf
      rw [hfil]
      rfl

/-- Claim C6, witness: the amended round trip evaluated on a concrete
future-dated relationship-backed record: marked all at instant 50,
reloaded at 60, the record created at 100 derives read and the unread
count is zero. -/
theorem c6_amended_witness :
    (∀ r ∈ [c6PortalRecord], legacyShape r = false ∧ r.hasReadVal.isPresent = false
       ∧ r.createdon.isPresent = true)
    ∧ loadCycle ⟨[], 0, none⟩ [c6PortalRecord] 10 = .ok c6World1
    ∧ loadCycle (markAllMessagesAsRead c6World1 50) [c6PortalRecord] 60 = .ok c6World3
    ∧ c6World3.unreadCount = 0 := by
  refine ⟨by decide, rfl, rfl, ?_⟩
  exact c6_amended ⟨[], 0, none⟩ [c6PortalRecord] 10 50 60 c6World1 c6World3
    (by decide) rfl rfl

/-- Claim C5: `markMessageAsRead` is a no-op on an unknown id or an
already-read message; otherwise it sets the message's local read flag
to true and — in every environment and strategy, because
`processMessages` runs at the end of the operation — advances
`lastCheckedAt` to the message's date exactly when that date is newer
than the stored value, leaving the stored value unchanged otherwise.
The remote update has no local effect in the model (its failure is
caught by the code), so the local flag is never reverted.  The
hypothesis that every read message's date is at most the stored value
is the invariant `processMessages` itself establishes after every
operation. -/
theorem c5_markAsRead (isLocal hasPortalCfg : Bool) (w : World) (mid : String) :
    (getMessage w mid = none → markMessageAsRead isLocal hasPortalCfg w mid = w)
    ∧ (∀ m, getMessage w mid = some m → truthyBool m.read = true →
         markMessageAsRead isLocal hasPortalCfg w mid = w)
    ∧ (∀ m d, getMessage w mid = some m → truthyBool m.read = false → m.date = .val d →
         (∀ x ∈ w.messages, truthyBool x.read = true →
            x.date.getD 0 ≤ w.lastChecked.getD 0) →
         getMessage (markMessageAsRead isLocal hasPortalCfg w mid) mid
             = some { m with read := .val true }
         ∧ (w.lastChecked.getD 0 < d →
              (markMessageAsRead isLocal hasPortalCfg w mid).lastChecked = some d)
         ∧ (d ≤ w.lastChecked.getD 0 →
              (markMessageAsRead isLocal hasPortalCfg w mid).lastChecked = w.lastChecked)) := by
  refine ⟨?_, ?_, ?_⟩
  · intro h
    unfold markMessageAsRead
    rw [h]
  · intro m hm hr
    unfold markMessageAsRead
    simp only [hm]
    rw [if_pos hr]
  · intro m d hm hr hd hinv
    have hfind : w.messages.find? (fun x => x.id == JsVal.val mid) = some m := hm
    have hgm1 : (setReadFirst w.messages mid).find? (fun x => x.id == JsVal.val mid)
        = some { m with read := JsVal.val true } :=
      setReadFirst_find w.messages mid m hfind
    have hgm1' : getMessage { w with messages := setReadFirst w.messages mid } mid
        = some { m with read := JsVal.val true } := hgm1
    have hmrdate : ({ m with read := JsVal.val true } : Message).date = JsVal.val d := by
      rw [show ({ m with read := JsVal.val true } : Message).date = m.date from rfl, hd]
    have hmemr : ({ m with read := JsVal.val true } : Message)
        ∈ setReadFirst w.messages mid :=
      List.mem_of_find?_eq_some hgm1
    have hub1 : ∀ x ∈ setReadFirst w.messages mid, truthyBool x.read = true →
        (x.date.getD 0 ≤ w.lastChecked.getD 0 ∨ x.date.getD 0 = d) := by
      intro x hx hxr
      rcases setReadFirst_mem w.messages mid m x hfind hx with hxm | rfl
      · exact Or.inl (hinv x hxm hxr)
      · right
        rw [hmrdate]
        rfl
    have hcore : ∀ w2 : World, w2.messages = setReadFirst w.messages mid →
        (w2.lastChecked = w.lastChecked
          ∨ (w2.lastChecked = some d ∧ w.lastChecked.getD 0 < d)) →
        getMessage (processMessages w2) mid = some { m with read := JsVal.val true }
        ∧ (w.lastChecked.getD 0 < d → (processMessages w2).lastChecked = some d)
        ∧ (d ≤ w.lastChecked.getD 0 → (processMessages w2).lastChecked = w.lastChecked) := by
      intro w2 hmsg hlc2
      have hsome : (some d : Option Nat).getD 0 = d := rfl
      refine ⟨?_, ?_, ?_⟩
      · have he : (processMessages w2).messages = setReadFirst w.messages mid := by
          rw [processMessages_messages, hmsg]
        unfold getMessage
        rw [he]
        exact hgm1
      · intro hlt
        rcases hlc2 with heq | ⟨heq, -⟩
        · apply pm_lc_pinned w2 d
          · intro x hx hxr
            rw [hmsg] at hx
            rcases hub1 x hx hxr with h1 | h1
            · rw [heq] at *
              omega
            · omega
          · refine ⟨{ m with read := JsVal.val true }, ?_, rfl, hmrdate⟩
            rw [hmsg]
            exact hmemr
          · rw [heq]
            exact hlt
        · have hfx := pm_lc_fixed w2 ?_
          · rw [hfx, heq]
          · intro x hx hxr
            rw [hmsg] at hx
            rw [heq, hsome]
            rcases hub1 x hx hxr with h1 | h1 <;> omega
      · intro hge
        rcases hlc2 with heq | ⟨-, hlt⟩
        · have hfx := pm_lc_fixed w2 ?_
          · rw [hfx, heq]
          · intro x hx hxr
            rw [hmsg] at hx
            rw [heq]
            rcases hub1 x hx hxr with h1 | h1 <;> omega
        · omega
    have hmark : markMessageAsRead isLocal hasPortalCfg w mid
        = processMessages (updateMessageReadStatus isLocal hasPortalCfg
            { w with messages := setReadFirst w.messages mid } mid true) := by
      unfold markMessageAsRead
      simp only [hm]
      rw [if_neg (by simp [hr])]
    rw [hmark]
    have hupd := updateMessageReadStatus_found isLocal hasPortalCfg
      { w with messages := setReadFirst w.messages mid } mid
      { m with read := JsVal.val true } hgm1'
    by_cases hloc : (isLocal || !hasPortalCfg) = true
    · rw [if_pos hloc] at hupd
      rw [hupd]
      exact hcore _ rfl (Or.inl rfl)
    · rw [if_neg hloc] at hupd
      by_cases hgt : ({ m with read := JsVal.val true } : Message).date.getD 0
          > ({ w with messages := setReadFirst w.messages mid } : World).lastChecked.getD 0
      · rw [if_pos hgt] at hupd
        rw [hupd]
        have hgd : ({ m with read := JsVal.val true } : Message).date.getD 0 = d := by
          rw [hmrdate]
          rfl
        have hgt' : w.lastChecked.getD 0 < d := by
          rw [hgd] at hgt
          exact hgt
        refine hcore _ rfl (Or.inr ⟨?_, hgt'⟩)
        show some (({ m with read := JsVal.val true } : Message).date.getD 0) = some d
        rw [hgd]
      · rw [if_neg hgt] at hupd
        rw [hupd]
        exact hcore _ rfl (Or.inl rfl)

/-- Claim C5, witness: on the concrete state `c5World` (one unread
message dated 100, no stored timestamp), `markMessageAsRead` sets the
flag and advances the timestamp to 100 both in the local environment
(`isLocal = true`) and against the API strategy (`isLocal = false`). -/
theorem c5_markAsRead_witness :
    getMessage c5World "m1" = some c5Msg
    ∧ truthyBool c5Msg.read = false
    ∧ c5Msg.date = .val 100
    ∧ (∀ x ∈ c5World.messages, truthyBool x.read = true →
         x.date.getD 0 ≤ c5World.lastChecked.getD 0)
    ∧ getMessage (markMessageAsRead true true c5World "m1") "m1"
        = some { c5Msg with read := .val true }
    ∧ (markMessageAsRead true true c5World "m1").lastChecked = some 100
    ∧ (markMessageAsRead false true c5World "m1").lastChecked = some 100 := by
  have h1 := (c5_markAsRead true true c5World "m1").2.2 c5Msg 100 rfl rfl rfl (by decide)
  have h2 := (c5_markAsRead false true c5World "m1").2.2 c5Msg 100 rfl rfl rfl (by decide)
  exact ⟨rfl, rfl, rfl, by decide, h1.1, h1.2.1 (by decide), h2.2.1 (by decide)⟩

/-- Claim C10: with no publisher prefix configured and no field-mapping
override, `getFieldName` silently derives `"msfed_" ++ key` (e.g.
`msfed_hasread`), and with no regarding-object block configured,
`getRegardingObjectConfig` defaults the entity name, entity-set name
and navigation property from the same hard-coded `msfed` prefix. -/
theorem c10_msfed_defaults (cfg : AppConfig) (k : String)
    (hpfx : truthyStr cfg.publisherPfx = false)
    (hmap : truthyStr (lookupMapping cfg.fieldMapping k) = false)
    (hreg : cfg.regardingObject = .undefined) :
    getFieldName cfg k = "msfed_" ++ k
    ∧ getRegardingObjectConfig cfg
        = ⟨"msfed_application", "msfed_applications",
           "regardingobjectid_msfed_application"⟩ := by
  constructor
  · unfold getFieldName
    have hlit : ("msfed" ++ "_" : String) = "msfed_" := rfl
    rw [strOr_of_falsy _ _ hmap, strOr_of_falsy _ _ hpfx, hlit]
  · unfold getRegardingObjectConfig
    rw [hreg]
    rw [strOr_of_falsy _ _ hpfx]
    rfl

/-- Claim C3: for a found message whose `toContactId` and `fromStaffId`
are present, `createReply` (portal environment, create enabled) posts a
payload whose two party entries are role 1 bound to the contact
`toContactId` and role 2 bound to the system user `fromStaffId`, with
subject `"Re: " ++ subject`, the reply text verbatim as the body, and
direction code 1. -/
theorem c3_reply_roundtrip (cfg : AppConfig) (w : World) (mid replyText : String)
    (m : Message) (cid sid : String)
    (hm : getMessage w mid = some m)
    (hcid : m.toContactId = .val cid) (hcid0 : cid ≠ "")
    (hsid : m.fromStaffId = .val sid) (hsid0 : sid ≠ "") :
    createReply false true true cfg w mid replyText
      = .posted
          { subject := "Re: " ++ m.subject
            description := replyText
            directioncode := 1
            regardingBindProp :=
              (getRegardingObjectConfig cfg).navigationProperty ++ "@odata.bind"
            regardingBindValue :=
              "/" ++ ((getRegardingObjectConfig cfg).entitySetName
                ++ ("(" ++ (jsStr m.regardingObjectId ++ ")")))
            parties :=
              [ { participationtypemask := 1
                  bindProp := "partyid_contact@odata.bind"
                  bindValue := "/contacts(" ++ (cid ++ ")") },
                { participationtypemask := 2
                  bindProp := "partyid_systemuser@odata.bind"
                  bindValue := "/systemusers(" ++ (sid ++ ")") } ] } := by
  have ht1 : truthyStr m.toContactId = true := by rw [hcid]; simp [truthyStr, hcid0]
  have ht2 : truthyStr m.fromStaffId = true := by rw [hsid]; simp [truthyStr, hsid0]
  unfold createReply
  rw [hm]
  simp only [Bool.false_or, Bool.not_true, Bool.false_eq_true, if_false, ht1, ht2,
    Bool.not_false, Bool.true_eq_false]
  rw [hcid, hsid]
  rfl

/-- Claim C3, witness: the composer evaluated on the concrete message
`c3Msg` held in `c3World`. -/
theorem c3_reply_roundtrip_witness :
    getMessage c3World "a1" = some c3Msg
    ∧ c3Msg.toContactId = .val "contact-1"
    ∧ c3Msg.fromStaffId = .val "staff-1"
    ∧ createReply false true true emptyConfig c3World "a1" "thanks"
        = .posted
            { subject := "Re: Question"
              description := "thanks"
              directioncode := 1
              regardingBindProp := "regardingobjectid_msfed_application@odata.bind"
              regardingBindValue := "/msfed_applications(case-9)"
              parties :=
                [ { participationtypemask := 1
                    bindProp := "partyid_contact@odata.bind"
                    bindValue := "/contacts(contact-1)" },
                  { participationtypemask := 2
                    bindProp := "partyid_systemuser@odata.bind"
                    bindValue := "/systemusers(staff-1)" } ] } := by
  refine ⟨rfl, rfl, rfl, ?_⟩
  have h := c3_reply_roundtrip emptyConfig c3World "a1" "thanks" c3Msg
    "contact-1" "staff-1" rfl rfl (by decide) rfl (by decide)
  exact h.trans (by decide)

/-- Claim C4: for a relationship-backed record with a creator identity
and a non-empty party list, mapping fails with the contact-party
`MappingError` when no party carries the recipient role (mask 2) with a
present contact reference; and whenever mapping succeeds, the message's
recipient fields come from the first party matched by
`List.find? recipientPred`. -/
theorem c4_recipient_party (lastChecked : Option Nat) (now : Nat) (c : RawRecord)
    (ps : List RawParty)
    (hleg : legacyShape c = false) (hcb : truthyStr c.createdbyValue = true)
    (hp : c.activityParties = .val ps) (hne : ps ≠ []) :
    (ps.find? recipientPred = none →
       mapPortalComment lastChecked now c = .error .contactPartyMissing)
    ∧ (∀ m, mapPortalComment lastChecked now c = .ok m →
        ∃ p, ps.find? recipientPred = some p
          ∧ m.toContactId = (p.partyid_contact.getD ⟨.undefined, .undefined⟩).contactid
          ∧ m.toContact = (p.partyid_contact.getD ⟨.undefined, .undefined⟩).fullname) := by
  constructor
  · intro hfind
    exact mapPortalComment_noRecipient lastChecked now c ps hleg hcb hp hne hfind
  · intro m hok
    exact mapPortalComment_toParty lastChecked now c m ps hleg hp hok

/-- Claim C4, witness: `c4Record` carries two recipient-role parties
and maps to the first (`contact-first`), while `c4NoRecipRecord`
carries none and fails with the contact-party error. -/
theorem c4_recipient_party_witness :
    c4Parties ≠ []
    ∧ mapPortalComment none 0 c4Record = .ok c4Message
    ∧ (∃ p, c4Parties.find? recipientPred = some p
        ∧ c4Message.toContactId = (p.partyid_contact.getD ⟨.undefined, .undefined⟩).contactid
        ∧ c4Message.toContact = (p.partyid_contact.getD ⟨.undefined, .undefined⟩).fullname)
    ∧ c4Message.toContactId = .val "contact-first"
    ∧ mapPortalComment none 0 c4NoRecipRecord = .error .contactPartyMissing := by
  refine ⟨by decide, rfl, ?_, rfl, ?_⟩
  · exact (c4_recipient_party none 0 c4Record c4Parties rfl rfl rfl (by decide)).2
      c4Message rfl
  · exact (c4_recipient_party none 0 c4NoRecipRecord [⟨1, .undefined⟩] rfl rfl rfl
      (by decide)).1 rfl

/-- Claim C7: the constructed `$filter` always starts with the
mandatory inbound-direction predicate; with no configured filter it is
exactly that predicate, and a configured (truthy) filter is appended
with a logical AND, parenthesised, never replacing the predicate. -/
theorem c7_mandatory_filter (readFilter : JsVal String) :
    (∃ rest, buildPortalFilter readFilter = mandatoryDirectionPredicate ++ rest)
    ∧ (truthyStr readFilter = false →
         buildPortalFilter readFilter = mandatoryDirectionPredicate)
    ∧ (∀ s, readFilter = .val s → s ≠ "" →
         buildPortalFilter readFilter
           = mandatoryDirectionPredicate ++ (" and (" ++ (s ++ ")"))) := by
  have hfalsy : truthyStr readFilter = false →
      buildPortalFilter readFilter = mandatoryDirectionPredicate := by
    intro h
    simp [buildPortalFilter, h, joinAnd]
  have htruthy : ∀ s, readFilter = .val s → s ≠ "" →
      buildPortalFilter readFilter
        = mandatoryDirectionPredicate ++ (" and (" ++ (s ++ ")")) := by
    intro s hs hs0
    have ht : truthyStr readFilter = true := by rw [hs]; simp [truthyStr, hs0]
    have hg : readFilter.getD "" = s := by rw [hs]; rfl
    have hlit : (" and " ++ "(" : String) = " and (" := rfl
    simp only [buildPortalFilter, ht, if_true, List.singleton_append, hg, joinAnd]
    rw [← String.append_assoc " and " "(" (s ++ ")"), hlit]
  refine ⟨?_, hfalsy, htruthy⟩
  by_cases h : truthyStr readFilter = true
  · obtain ⟨s, hv, hs0⟩ : ∃ s, readFilter = JsVal.val s ∧ s ≠ "" := by
      cases readFilter with
      | undefined => simp [truthyStr] at h
      | null => simp [truthyStr] at h
      | val s => exact ⟨s, rfl, by simpa [truthyStr] using h⟩
    exact ⟨" and (" ++ (s ++ ")"), htruthy s hv hs0⟩
  · have h' : truthyStr readFilter = false := by
      cases ht : truthyStr readFilter
      · rfl
      · exact absurd ht h
    exact ⟨"", by rw [String.append_empty]; exact hfalsy h'⟩

/-- Claim C7, witness: the filter construction at a concrete configured
filter and at an absent one. -/
theorem c7_mandatory_filter_witness :
    buildPortalFilter (.val "statecode eq 0")
        = "adx_portalcommentdirectioncode eq 2 and (statecode eq 0)"
    ∧ buildPortalFilter .undefined = "adx_portalcommentdirectioncode eq 2" := by
  constructor
  · have h := (c7_mandatory_filter (.val "statecode eq 0")).2.2
      "statecode eq 0" rfl (by decide)
    exact h.trans (by decide)
  · exact ((c7_mandatory_filter .undefined).2.1 rfl).trans (by decide)

/-- Claim C8, counterexample: with update operations disabled,
`updatePortalCommentReadStatus` takes the silent early return — a
normal completion with no error and no network request — rather than
failing with an `OperationDisabled` error as claimed. -/
theorem c8_counterexample :
    updatePortalCommentReadStatus emptyConfig true false true = .silentSkip
    ∧ updatePortalCommentReadStatus emptyConfig true false true
        ≠ .patched "msfed_hasread" true 1 := by
  exact ⟨rfl, by decide⟩

/-- Claim C8, amended: a disabled create operation makes `createReply`
fail (a `{success:false}` result) before any network call, but a
disabled or absent update operation makes the read-status update log
and return silently with no network call and no failure. -/
theorem c8_disabled_operations (cfg : AppConfig) (w : World) (mid replyText : String)
    (updateOpsPresent updateEnabled : Bool) (hasRead : Bool)
    (hdis : updateOpsPresent = false ∨ updateEnabled = false) :
    createReply false true false cfg w mid replyText
        = .failure "Create operations are not enabled"
    ∧ updatePortalCommentReadStatus cfg updateOpsPresent updateEnabled hasRead
        = .silentSkip := by
  constructor
  · rfl
  · rcases hdis with rfl | rfl
    · rfl
    · unfold updatePortalCommentReadStatus
      rw [if_pos (by simp)]

/-- Claim C8, witness: the amended behaviour at a concrete disabled
configuration. -/
theorem c8_disabled_operations_witness :
    createReply false true false emptyConfig ⟨[], 0, none⟩ "m1" "hi"
        = .failure "Create operations are not enabled"
    ∧ updatePortalCommentReadStatus emptyConfig false true true = .silentSkip := by
  exact c8_disabled_operations emptyConfig ⟨[], 0, none⟩ "m1" "hi" false true true
    (Or.inl rfl)

/-- Claim C10, witness: the empty configuration yields
`msfed_hasread` for the read-flag field and the `msfed`-derived
regarding-object names. -/
theorem c10_msfed_defaults_witness :
    truthyStr emptyConfig.publisherPfx = false
    ∧ getFieldName emptyConfig "hasread" = "msfed_hasread"
    ∧ getRegardingObjectConfig emptyConfig
        = ⟨"msfed_application", "msfed_applications",
           "regardingobjectid_msfed_application"⟩ := by
  have h := c10_msfed_defaults emptyConfig "hasread" rfl rfl rfl
  exact ⟨rfl, h.1.trans (by decide), h.2⟩

end PortalInbox
